import Mathlib

/-!
Verification development for the r2-images repository: a shallow embedding of
the three handler variants (src/src/index.ts with an edge cache, and the two
unnamed variants part_000 and part_001 without one), together with theorems
settling the specification claims about the validate / classify / cache /
fetch pipeline.

Conventions of the embedding:
* A header value of `none` records that the JavaScript code passed the value
  `undefined` for that header entry.
* Header names are lowercased on response construction (`mkHeaders`), modelling
  the platform Headers class, whose iteration and storage lowercase names.
* The external collaborators (S3 store, edge cache) are modelled as oracles in
  an environment record: each call site reads the corresponding outcome, which
  is either a value or a thrown error carrying its `name` property.
* The trace component of the cached handler records, in order, which external
  calls the handler issues.
-/

/-- Header value: `some v` is a string value, `none` is JavaScript undefined. -/
abbrev HVal := Option String

/-- Character class of the validation regex `[\w\-.]` in src/src/index.ts and
part_000 (JavaScript `\w` is `[A-Za-z0-9_]`). -/
def isNameChar (c : Char) : Bool :=
  (decide ('A' ≤ c) && decide (c ≤ 'Z')) ||
  (decide ('a' ≤ c) && decide (c ≤ 'z')) ||
  (decide ('0' ≤ c) && decide (c ≤ '9')) ||
  c == '_' || c == '-' || c == '.'

/-- Character class of the validation regex `[\w\-\.]` in part_001; inside a
character class the escaped dot denotes the same literal dot. -/
def isNameChar1 (c : Char) : Bool :=
  (decide ('A' ≤ c) && decide (c ≤ 'Z')) ||
  (decide ('a' ≤ c) && decide (c ≤ 'z')) ||
  (decide ('0' ≤ c) && decide (c ≤ '9')) ||
  c == '_' || c == '-' || c == '.'

/-- JavaScript `s.includes("..")`: two consecutive dots occur in the string. -/
def hasDotDot : List Char → Bool
  | c1 :: c2 :: rest => (c1 == '.' && c2 == '.') || hasDotDot (c2 :: rest)
  | _ => false

/-- JavaScript `s.split(".")` on the character list: tokens between dots, with
empty tokens kept, and the empty string splitting to one empty token. -/
def splitTokens : List Char → List (List Char)
  | [] => [[]]
  | c :: rest =>
    if c == '.' then [] :: splitTokens rest
    else
      match splitTokens rest with
      | t :: ts => (c :: t) :: ts
      | [] => [[c]]

/-- validateFilename from src/src/index.ts:
`/^[\w\-.]{1,256}$/.test(f) && !f.includes("..") && f.split(".").length <= 10`. -/
def validateFilename (s : String) : Bool :=
  (decide (1 ≤ s.data.length) && decide (s.data.length ≤ 256) &&
    s.data.all isNameChar)
  && !hasDotDot s.data
  && decide ((splitTokens s.data).length ≤ 10)

/-- validateFilename from part_000 (textually identical to src/src/index.ts). -/
def validateFilename0 (s : String) : Bool :=
  (decide (1 ≤ s.data.length) && decide (s.data.length ≤ 256) &&
    s.data.all isNameChar)
  && !hasDotDot s.data
  && decide ((splitTokens s.data).length ≤ 10)

/-- validateFilename from part_001 (regex `/^[\w\-\.]{1,256}$/`). -/
def validateFilename1 (s : String) : Bool :=
  (decide (1 ≤ s.data.length) && decide (s.data.length ≤ 256) &&
    s.data.all isNameChar1)
  && !hasDotDot s.data
  && decide ((splitTokens s.data).length ≤ 10)

/-- JavaScript `s.lastIndexOf(".")`: index of the last dot, or -1. -/
def lastIndexOfDot (s : String) : Int :=
  match s.data.reverse.findIdx? (fun c => c == '.') with
  | some j => ((s.data.length - 1 - j : Nat) : Int)
  | none => -1

/-- JavaScript `s.slice(start)` with a single (possibly negative) argument:
a negative start counts back from the end, clamped at 0. -/
def jsSliceFrom (s : String) (start : Int) : String :=
  let n := s.data.length
  let b : Nat := if start < 0 then n - min n (-start).toNat else min start.toNat n
  String.mk (s.data.drop b)

/-- JavaScript `toLowerCase` restricted to the validated character set (ASCII):
lowercase each character. -/
def lowerStr (s : String) : String :=
  String.mk (s.data.map Char.toLower)

/-- The extension computation shared by all three variants:
`filename.slice(filename.lastIndexOf(".")).toLowerCase()`. -/
def extOf (filename : String) : String :=
  lowerStr (jsSliceFrom filename (lastIndexOfDot filename))

/-- The ALLOWED_EXTENSIONS set, identical in all three variants. -/
def ALLOWED_EXTENSIONS : List String :=
  [".jpg", ".jpeg", ".png", ".gif", ".webp"]

/-- The CONTENT_TYPES table, identical in all three variants; `none` models the
undefined result of indexing the object with an absent key. -/
def CONTENT_TYPES (ext : String) : Option String :=
  if ext == ".jpg" then some "image/jpeg"
  else if ext == ".jpeg" then some "image/jpeg"
  else if ext == ".png" then some "image/png"
  else if ext == ".gif" then some "image/gif"
  else if ext == ".webp" then some "image/webp"
  else none

/-- `headResponse.ETag?.replace(/"/g, "")`: remove every double quote. -/
def stripQuotes (t : String) : String :=
  String.mk (t.data.filter (fun c => c != '"'))

/-- A response: status, headers (name-value pairs) and body. The body of a
stream response is modelled by the byte string it delivers. -/
structure Response where
  status : Nat
  headers : List (String × HVal)
  body : String
deriving DecidableEq

/-- The platform Headers class lowercases header names on construction; this
models building a Headers object from a header record literal. -/
def mkHeaders (l : List (String × HVal)) : List (String × HVal) :=
  l.map (fun p => (lowerStr p.1, p.2))

/-- Hono `c.text(msg, status)`: a plain-text response. -/
def textResponse (body : String) (status : Nat) : Response :=
  { status := status
    headers := [("content-type", some "text/plain; charset=UTF-8")]
    body := body }

/-- A cached response snapshot, as returned by `cache.match`: its status, its
headers (names already lowercased by the Headers class) and its body. -/
structure CacheEntry where
  status : Nat
  headers : List (String × HVal)
  body : String
deriving DecidableEq

/-- Outcome of `await s3.send(headCommand)`: metadata, or a thrown error with
its `name` property (a missing key throws an error named NotFound). -/
inductive HeadOutcome where
  | ok (etag : Option String) (contentLength : Option Nat)
  | throw (errName : String)
deriving DecidableEq

/-- Outcome of `await cache.match(cacheKey)`: a cached response, undefined
(miss), or a thrown error with its `name` property. -/
inductive CacheOutcome where
  | hit (e : CacheEntry)
  | miss
  | throw (errName : String)
deriving DecidableEq

/-- Outcome of `await s3.send(getCommand)`: the body stream, or a thrown error
with its `name` property. -/
inductive GetOutcome where
  | ok (body : String)
  | throw (errName : String)
deriving DecidableEq

/-- External calls the cached handler can issue, in trace order. -/
inductive Event where
  | headCall
  | cacheMatch
  | getCall
  | cachePut
deriving DecidableEq

/-- Oracle environment for one request to the src/src/index.ts handler.
`putThrows` records whether the detached `cache.put` would fail; the handler
hands the put to `waitUntil` after building the response, so the field is
never consulted when computing the response. -/
structure EnvC where
  headResult : HeadOutcome
  cacheResult : CacheOutcome
  getResult : GetOutcome
  putThrows : Bool
deriving DecidableEq

/-- The catch block of src/src/index.ts and part_000:
`error.name === "NotFound"` gives 404, anything else 500. -/
def catchResp (errName : String) : Response :=
  if errName == "NotFound" then textResponse "Image not found" 404
  else textResponse "Internal Server Error" 500

/-- The header record of the fresh-fetch response in src/src/index.ts. -/
def missHeaders (ext : String) (etag : Option String) (clen : Option Nat) :
    List (String × HVal) :=
  mkHeaders [("Content-Type", CONTENT_TYPES ext),
    ("Cache-Control", some "public, max-age=604800"),
    ("ETag", etag.map stripQuotes),
    ("Content-Length", clen.map (fun n => toString n)),
    ("X-Content-Type-Options", some "nosniff"),
    ("X-Cache-Status", some "MISS")]

/-- JavaScript object-literal update `{...Object.fromEntries(hs), k: v}` for a
header list whose names are unique (the Headers iteration yields each name at
most once): replace the value at `k` in place, or append the entry. -/
def jsObjectSet (hs : List (String × HVal)) (k : String) (v : HVal) :
    List (String × HVal) :=
  if hs.any (fun p => p.1 == k) then
    hs.map (fun p => cond (p.1 == k) (k, v) p)
  else hs ++ [(k, v)]

/-- The cache-hit response of src/src/index.ts:
`new Response(cached.body, { status: 200, headers: {...Object.fromEntries(cached.headers), "x-cache-status": "HIT" } })`. -/
def hitResponse (e : CacheEntry) : Response :=
  { status := 200
    headers := jsObjectSet e.headers "x-cache-status" (some "HIT")
    body := e.body }

/-- The GET /images/:filename handler of src/src/index.ts, returning the
response together with the trace of external calls it issued. The source
early-returns on failed validation and classification; here the same control
flow is written with the success branch first. -/
def handlerC (filename : String) (env : EnvC) : Response × List Event :=
  if validateFilename filename then
    if ALLOWED_EXTENSIONS.contains (extOf filename) then
      match env.headResult with
      | HeadOutcome.throw n => (catchResp n, [Event.headCall])
      | HeadOutcome.ok etag clen =>
        match env.cacheResult with
        | CacheOutcome.throw n => (catchResp n, [Event.headCall, Event.cacheMatch])
        | CacheOutcome.hit e => (hitResponse e, [Event.headCall, Event.cacheMatch])
        | CacheOutcome.miss =>
          match env.getResult with
          | GetOutcome.throw n =>
            (catchResp n, [Event.headCall, Event.cacheMatch, Event.getCall])
          | GetOutcome.ok body =>
            ({ status := 200
               headers := missHeaders (extOf filename) etag clen
               body := body },
             [Event.headCall, Event.cacheMatch, Event.getCall, Event.cachePut])
    else (textResponse "Unsupported file type" 415, [])
  else (textResponse "Invalid filename format" 400, [])

/-- Oracle environment for one request to the part_000 handler (no cache). -/
structure Env0 where
  headResult : HeadOutcome
  getResult : GetOutcome
deriving DecidableEq

/-- The GET /images/:filename handler of part_000: head, then get, then a
response without any X-Cache-Status header. -/
def handler0 (filename : String) (env : Env0) : Response :=
  if validateFilename0 filename then
    if ALLOWED_EXTENSIONS.contains (extOf filename) then
      match env.headResult with
      | HeadOutcome.throw n => catchResp n
      | HeadOutcome.ok etag clen =>
        match env.getResult with
        | GetOutcome.throw n => catchResp n
        | GetOutcome.ok body =>
          { status := 200
            headers := mkHeaders [("Content-Type", CONTENT_TYPES (extOf filename)),
              ("Cache-Control", some "public, max-age=604800"),
              ("ETag", etag.map stripQuotes),
              ("Content-Length", clen.map (fun n => toString n)),
              ("X-Content-Type-Options", some "nosniff")]
            body := body }
    else textResponse "Unsupported file type" 415
  else textResponse "Invalid filename format" 400

/-- Outcome of `file.stat()` in part_001 (Bun S3): metadata with a plain etag
string, or a thrown error. -/
inductive StatOutcome where
  | ok (etag : String)
  | throw (errName : String)
deriving DecidableEq

/-- Outcome of `file.exists()` in part_001: a boolean, or a thrown error. -/
inductive ExistsOutcome where
  | ok (b : Bool)
  | throw (errName : String)
deriving DecidableEq

/-- Oracle environment for one request to the part_001 handler. -/
structure Env1 where
  statResult : StatOutcome
  existsResult : ExistsOutcome
  streamBody : String
deriving DecidableEq

/-- The GET /images/:filename handler of part_001: `Promise.all` of stat and
exists (a rejection of either lands in the catch block, which maps every error
to 500), a 404 when the object does not exist, otherwise a response whose ETag
is the raw stat etag and which has no Content-Length and no X-Cache-Status. -/
def handler1 (filename : String) (env : Env1) : Response :=
  if validateFilename1 filename then
    if ALLOWED_EXTENSIONS.contains (extOf filename) then
      match env.statResult, env.existsResult with
      | StatOutcome.ok etag, ExistsOutcome.ok ex =>
        if ex then
          { status := 200
            headers := mkHeaders [("Content-Type", CONTENT_TYPES (extOf filename)),
              ("Cache-Control", some "public, max-age=604800"),
              ("ETag", some etag),
              ("X-Content-Type-Options", some "nosniff")]
            body := env.streamBody }
        else textResponse "Image not found" 404
      | _, _ => textResponse "Internal Server Error" 500
    else textResponse "Unsupported file type" 415
  else textResponse "Invalid filename format" 400

/-- A cache entry held by the edge cache: a cached 206 response with a png
content type, used as a concrete cache-hit scenario. -/
def entryPng : CacheEntry :=
  { status := 206
    headers := [("content-type", some "image/png"), ("etag", some "xyz")]
    body := "PNGBYTES" }

/-- Environment of a request whose cache lookup hits `entryPng`. -/
def envHit : EnvC :=
  { headResult := HeadOutcome.ok (some "t") (some 3)
    cacheResult := CacheOutcome.hit entryPng
    getResult := GetOutcome.ok "PNGBYTES"
    putThrows := false }

/-- Environment of a request that misses the cache and fetches from the store:
the store reports a quoted entity tag and a content length of 12345. -/
def envMiss : EnvC :=
  { headResult := HeadOutcome.ok (some "\"abc\"") (some 12345)
    cacheResult := CacheOutcome.miss
    getResult := GetOutcome.ok "BYTES"
    putThrows := false }

/-- Environment of a request whose cache lookup throws a TypeError. -/
def envCacheThrow : EnvC :=
  { headResult := HeadOutcome.ok (some "t") (some 3)
    cacheResult := CacheOutcome.throw "TypeError"
    getResult := GetOutcome.ok "B"
    putThrows := false }

/-- Environment of a request for a key absent from the store: the head call
throws the distinguished NotFound error. -/
def envNotFound : EnvC :=
  { headResult := HeadOutcome.throw "NotFound"
    cacheResult := CacheOutcome.miss
    getResult := GetOutcome.throw "NoSuchKey"
    putThrows := false }

/-- part_000 environment of a successful head and get. -/
def env0Ok : Env0 :=
  { headResult := HeadOutcome.ok (some "\"abc\"") (some 7)
    getResult := GetOutcome.ok "B" }

/-- part_001 environment of an existing object with a quoted entity tag. -/
def env1Ok : Env1 :=
  { statResult := StatOutcome.ok "\"abc\""
    existsResult := ExistsOutcome.ok true
    streamBody := "BYTES" }

/-- part_001 environment of a missing object: stat succeeds, exists is false. -/
def env1Missing : Env1 :=
  { statResult := StatOutcome.ok "\"abc\""
    existsResult := ExistsOutcome.ok false
    streamBody := "" }

/-- A cache entry that was populated by this application: some run of the
cached handler scheduled a cache put, and the entry snapshots the headers and
body of the response that run returned. -/
def entryFromApp (e : CacheEntry) : Prop :=
  ∃ fn env, Event.cachePut ∈ (handlerC fn env).2 ∧
    e.headers = (handlerC fn env).1.headers ∧
    e.body = (handlerC fn env).1.body

/-- Sanity: a normal filename validates and classifies as jpeg. -/
theorem sanity_ext_jpg : extOf "a.JPG" = ".jpg" ∧ validateFilename "a.JPG" = true := by
  decide

/-- Sanity: the dotless filename keeps only its last character as extension. -/
theorem sanity_ext_dotless : extOf "png" = "g" := by
  decide

/-- Helper: in a list where some entry carries key `k`, the in-place update
makes the lookup of `k` find the new value. -/
theorem lookup_map_set_self (k : String) (v : HVal) :
    ∀ t : List (String × HVal), t.any (fun p => p.1 == k) = true →
      List.lookup k (t.map (fun p => cond (p.1 == k) (k, v) p)) = some v := by
  intro t
  induction t with
  | nil => intro h; simp at h
  | cons p t ih =>
    intro h
    cases hb : (p.1 == k) with
    | true =>
      have hp : p.1 = k := by simpa using hb
      simp [List.lookup, hb, hp]
    | false =>
      have ht : t.any (fun q => q.1 == k) = true := by
        simpa [hb] using h
      have h1 : k ≠ p.1 := fun hh => by simp [hh] at hb
      have hkb : (k == p.1) = false := by simp [h1]
      simp [List.lookup, hb, hkb, ih ht]

/-- Helper: appending the entry for an absent key makes the lookup find it. -/
theorem lookup_append_self (k : String) (v : HVal) :
    ∀ t : List (String × HVal), t.any (fun p => p.1 == k) = false →
      List.lookup k (t ++ [(k, v)]) = some v := by
  intro t
  induction t with
  | nil => intro _; simp [List.lookup]
  | cons p t ih =>
    intro h
    have hb : (p.1 == k) = false := by
      simp only [List.any_cons, Bool.or_eq_false_iff] at h
      exact h.1
    have ht : t.any (fun q => q.1 == k) = false := by
      simp only [List.any_cons, Bool.or_eq_false_iff] at h
      exact h.2
    have h1 : k ≠ p.1 := fun hh => by simp [hh] at hb
    have hkb : (k == p.1) = false := by simp [h1]
    simp [List.lookup, hkb, ih ht]

/-- Helper: looking up the key just written by the object update finds the new
value. -/
theorem lookup_jsObjectSet_self (hs : List (String × HVal)) (k : String) (v : HVal) :
    (jsObjectSet hs k v).lookup k = some v := by
  unfold jsObjectSet
  split
  case isTrue h => exact lookup_map_set_self k v hs h
  case isFalse h =>
    refine lookup_append_self k v hs ?_
    cases hb : hs.any (fun p => p.1 == k) with
    | true => exact absurd hb h
    | false => rfl

/-- Helper: the in-place update at key `k` leaves lookups of other keys
unchanged. -/
theorem lookup_map_set_other (k k' : String) (v : HVal) (hne : k' ≠ k) :
    ∀ t : List (String × HVal),
      List.lookup k' (t.map (fun p => cond (p.1 == k) (k, v) p)) =
        List.lookup k' t := by
  intro t
  induction t with
  | nil => simp
  | cons p t ih =>
    cases hb : (p.1 == k) with
    | true =>
      have hp : p.1 = k := by simpa using hb
      have h1 : (k' == k) = false := by simp [hne]
      have h2 : (k' == p.1) = false := by simp [hp, hne]
      simp [List.lookup, hb, h1, h2, ih]
    | false =>
      cases hkp : (k' == p.1) with
      | true => simp [List.lookup, hb, hkp]
      | false => simp [List.lookup, hb, hkp, ih]

/-- Helper: the object update at one key leaves the lookup of any other key
unchanged. -/
theorem lookup_jsObjectSet_other (hs : List (String × HVal)) (k k' : String) (v : HVal)
    (hne : k' ≠ k) :
    (jsObjectSet hs k v).lookup k' = hs.lookup k' := by
  unfold jsObjectSet
  have hkb : (k' == k) = false := by simp [hne]
  split
  case isTrue h => exact lookup_map_set_other k k' v hne hs
  case isFalse h =>
    rw [List.lookup_append]
    have h2 : List.lookup k' [(k, v)] = none := by simp [List.lookup, hkb]
    rw [h2]
    cases List.lookup k' hs <;> rfl

/-- Helper: the content type of an allow-listed extension is one of the four
image MIME strings of the table. -/
theorem contentType_mem_of_allowed (e : String)
    (h : ALLOWED_EXTENSIONS.contains e = true) :
    some (CONTENT_TYPES e) ∈
      [some (some "image/jpeg"), some (some "image/png"),
       some (some "image/gif"), some (some "image/webp")] := by
  have h' : e ∈ ALLOWED_EXTENSIONS := List.elem_iff.mp h
  simp only [ALLOWED_EXTENSIONS, List.mem_cons, List.not_mem_nil, or_false] at h'
  rcases h' with rfl | rfl | rfl | rfl | rfl <;> decide

/-- Helper: the content type of an allow-listed extension is present. -/
theorem contentType_isSome_of_allowed (e : String)
    (h : ALLOWED_EXTENSIONS.contains e = true) :
    (CONTENT_TYPES e).isSome = true := by
  have h' : e ∈ ALLOWED_EXTENSIONS := List.elem_iff.mp h
  simp only [ALLOWED_EXTENSIONS, List.mem_cons, List.not_mem_nil, or_false] at h'
  rcases h' with rfl | rfl | rfl | rfl | rfl <;> decide

/-- Helper: a one-character string is not an allow-listed extension. -/
theorem not_allowed_of_length_one (e : String) (h : e.data.length = 1) :
    ALLOWED_EXTENSIONS.contains e = false := by
  cases hb : ALLOWED_EXTENSIONS.contains e with
  | false => rfl
  | true =>
    exfalso
    have h' : e ∈ ALLOWED_EXTENSIONS := List.elem_iff.mp hb
    simp only [ALLOWED_EXTENSIONS, List.mem_cons, List.not_mem_nil, or_false] at h'
    rcases h' with rfl | rfl | rfl | rfl | rfl <;> simp at h

/-- Claim C1 counterexample: a request that passes validation and
classification and whose cache lookup hits nevertheless issues a store head
call, because src/src/index.ts awaits the head command before consulting the
cache; so the lookup is not performed before every object-store access and a
hit is not answered without a store call. -/
theorem c1_counterexample :
    validateFilename "a.jpg" = true ∧
    ALLOWED_EXTENSIONS.contains (extOf "a.jpg") = true ∧
    envHit.cacheResult = CacheOutcome.hit entryPng ∧
    (handlerC "a.jpg" envHit).2 = [Event.headCall, Event.cacheMatch] ∧
    Event.headCall ∈ (handlerC "a.jpg" envHit).2 := by
  decide

/-- Claim C1 (amended): for every request that passes validation and
classification, the store head call is issued before the cache lookup; when
the lookup hits, the trace is exactly head then match, so no store get call
and no cache put is issued, and the response is rebuilt from the cache entry. -/
theorem c1_hit_trace (fn : String) (env : EnvC) (e : CacheEntry)
    (etag : Option String) (clen : Option Nat)
    (hv : validateFilename fn = true)
    (hx : ALLOWED_EXTENSIONS.contains (extOf fn) = true)
    (hh : env.headResult = HeadOutcome.ok etag clen)
    (hc : env.cacheResult = CacheOutcome.hit e) :
    (handlerC fn env).2 = [Event.headCall, Event.cacheMatch] ∧
    Event.getCall ∉ (handlerC fn env).2 ∧
    Event.cachePut ∉ (handlerC fn env).2 ∧
    (handlerC fn env).1 = hitResponse e := by
  have hx' : extOf fn ∈ ALLOWED_EXTENSIONS := List.elem_iff.mp hx
  simp [handlerC, hv, hx', hh, hc]

/-- Witness for the amended claim C1 at a concrete hit request. -/
theorem c1_hit_trace_witness :
    (handlerC "a.jpg" envHit).2 = [Event.headCall, Event.cacheMatch] ∧
    Event.getCall ∉ (handlerC "a.jpg" envHit).2 ∧
    Event.cachePut ∉ (handlerC "a.jpg" envHit).2 ∧
    (handlerC "a.jpg" envHit).1 = hitResponse entryPng :=
  c1_hit_trace "a.jpg" envHit entryPng (some "t") (some 3)
    (by decide) (by decide) rfl rfl

/-- Claim C2 counterexample: a cache lookup that throws is caught by the
generic catch block of src/src/index.ts and surfaces to the caller as a 500
status, so a cache-layer failure is not always handled as a miss. -/
theorem c2_counterexample :
    validateFilename "a.jpg" = true ∧
    ALLOWED_EXTENSIONS.contains (extOf "a.jpg") = true ∧
    envCacheThrow.cacheResult = CacheOutcome.throw "TypeError" ∧
    (handlerC "a.jpg" envCacheThrow).1.status = 500 := by
  decide

/-- Claim C2 (amended): the response never depends on the outcome of the
detached cache put, a lookup that resolves to no entry proceeds to the store
as a miss, but a cache lookup that throws an error not named NotFound is
caught by the generic handler and surfaces as a 500 response. -/
theorem c2_cache_isolation :
    (∀ (fn : String) (env : EnvC) (b : Bool),
      handlerC fn { env with putThrows := b } = handlerC fn env) ∧
    (∀ (fn : String) (env : EnvC) (etag : Option String) (clen : Option Nat),
      validateFilename fn = true →
      ALLOWED_EXTENSIONS.contains (extOf fn) = true →
      env.headResult = HeadOutcome.ok etag clen →
      env.cacheResult = CacheOutcome.miss →
      Event.getCall ∈ (handlerC fn env).2) ∧
    (∀ (fn : String) (env : EnvC) (etag : Option String) (clen : Option Nat)
        (n : String),
      validateFilename fn = true →
      ALLOWED_EXTENSIONS.contains (extOf fn) = true →
      env.headResult = HeadOutcome.ok etag clen →
      env.cacheResult = CacheOutcome.throw n →
      n ≠ "NotFound" →
      (handlerC fn env).1 = textResponse "Internal Server Error" 500) := by
  refine ⟨?_, ?_, ?_⟩
  · intro fn env b
    rfl
  · intro fn env etag clen hv hx hh hc
    have hx' : extOf fn ∈ ALLOWED_EXTENSIONS := List.elem_iff.mp hx
    cases hg : env.getResult <;> simp [handlerC, hv, hx', hh, hc, hg]
  · intro fn env etag clen n hv hx hh hc hn
    have hx' : extOf fn ∈ ALLOWED_EXTENSIONS := List.elem_iff.mp hx
    have hnb : (n == "NotFound") = false := by simp [hn]
    simp [handlerC, hv, hx', hh, hc, catchResp, hnb]

/-- Witness for the amended claim C2 at concrete requests. -/
theorem c2_cache_isolation_witness :
    handlerC "a.jpg" { envMiss with putThrows := true } = handlerC "a.jpg" envMiss ∧
    Event.getCall ∈ (handlerC "a.jpg" envMiss).2 ∧
    (handlerC "a.jpg" envCacheThrow).1 = textResponse "Internal Server Error" 500 :=
  ⟨c2_cache_isolation.1 "a.jpg" envMiss true,
   c2_cache_isolation.2.1 "a.jpg" envMiss (some "\"abc\"") (some 12345)
     (by decide) (by decide) rfl rfl,
   c2_cache_isolation.2.2 "a.jpg" envCacheThrow (some "t") (some 3) "TypeError"
     (by decide) (by decide) rfl rfl (by decide)⟩

/-- Claim C4 counterexample: a filename that splits on the dot into exactly 10
tokens passes the validator (the code allows up to and including 10 tokens),
and a request for it can even be answered 200, so a name with 10 or more
tokens is not rejected. -/
theorem c4_counterexample :
    validateFilename "a.b.c.d.e.f.g.h.i.jpg" = true ∧
    (splitTokens "a.b.c.d.e.f.g.h.i.jpg".data).length = 10 ∧
    (handlerC "a.b.c.d.e.f.g.h.i.jpg" envMiss).1.status = 200 := by
  decide

/-- Claim C4 (amended): for every filename that splits on the dot into 11 or
more tokens (strictly more than 10), the validator rejects it and the request
is answered with the 400 response, regardless of characters and length. -/
theorem c4_token_bound (s : String) (env : EnvC)
    (h : 11 ≤ (splitTokens s.data).length) :
    validateFilename s = false ∧
    (handlerC s env).1 = textResponse "Invalid filename format" 400 := by
  have hv : validateFilename s = false := by
    have hgt : ¬ (splitTokens s.data).length ≤ 10 := by omega
    simp [validateFilename, hgt]
  exact ⟨hv, by simp [handlerC, hv]⟩

/-- Witness for the amended claim C4 at a concrete 11-token filename. -/
theorem c4_token_bound_witness :
    validateFilename "a.a.a.a.a.a.a.a.a.a.a" = false ∧
    (handlerC "a.a.a.a.a.a.a.a.a.a.a" envMiss).1 =
      textResponse "Invalid filename format" 400 :=
  c4_token_bound "a.a.a.a.a.a.a.a.a.a.a" envMiss (by decide)

/-- Claim C10: the filename validators of the three source variants are
extensionally equal: on every input string the three functions return the same
boolean, since the two regexes denote the same character class and the other
two conjuncts are textually identical. -/
theorem c10_validators_agree (s : String) :
    validateFilename s = validateFilename0 s ∧
    validateFilename s = validateFilename1 s :=
  ⟨rfl, rfl⟩

/-- Claim C8: the validator rejects every string containing a double dot, the
empty string, every string longer than 256 characters, and every string
containing a character outside the allowed class, and every rejected filename
is answered with the 400 response. -/
theorem c8_validator_rejections :
    (∀ s : String, hasDotDot s.data = true → validateFilename s = false) ∧
    validateFilename "" = false ∧
    (∀ s : String, 256 < s.data.length → validateFilename s = false) ∧
    (∀ (s : String) (c : Char), c ∈ s.data → isNameChar c = false →
      validateFilename s = false) ∧
    (∀ (s : String) (env : EnvC), validateFilename s = false →
      (handlerC s env).1 = textResponse "Invalid filename format" 400) := by
  refine ⟨?_, by decide, ?_, ?_, ?_⟩
  · intro s h
    simp [validateFilename, h]
  · intro s h
    have hlen : s.length = s.data.length := rfl
    have hgt : ¬ s.length ≤ 256 := by omega
    simp [validateFilename, hgt]
  · intro s c h1 h2
    have hall : s.data.all isNameChar = false := by
      rw [List.all_eq_false]
      exact ⟨c, h1, by simp [h2]⟩
    simp [validateFilename, hall]
  · intro s env h
    simp [handlerC, h]

/-- Witness for claim C8 at concrete inputs: a traversal name, an overlong
name, a name with a slash, and the 400 response for a rejected name. -/
theorem c8_validator_rejections_witness :
    validateFilename "a..jpg" = false ∧
    validateFilename (String.mk (List.replicate 257 'a')) = false ∧
    validateFilename "a/b.jpg" = false ∧
    (handlerC "a..jpg" envMiss).1 = textResponse "Invalid filename format" 400 :=
  ⟨c8_validator_rejections.1 "a..jpg" (by decide),
   c8_validator_rejections.2.2.1 (String.mk (List.replicate 257 'a'))
     (by show 256 < (List.replicate 257 'a').length; rw [List.length_replicate]; omega),
   c8_validator_rejections.2.2.2.1 "a/b.jpg" '/' (by decide) (by decide),
   c8_validator_rejections.2.2.2.2 "a..jpg" envMiss
     (c8_validator_rejections.1 "a..jpg" (by decide))⟩

/-- Claim C5 counterexample: for the validated dotless filename "ab" the
classifier does not take the whole string as the extension: JavaScript
lastIndexOf yields -1 and slice(-1) keeps only the final character, so the
computed extension is "b". -/
theorem c5_counterexample :
    validateFilename "ab" = true ∧
    "ab".data.contains '.' = false ∧
    extOf "ab" = "b" ∧
    ¬ extOf "ab" = lowerStr "ab" ∧
    (handlerC "ab" envMiss).1.status = 415 := by
  decide

/-- Claim C5 (amended): for every validated filename with no dot, the
classifier takes the final character of the string, lowercased, as the
extension (slice of index -1); that one-character string is absent from the
allow-list, so the request is rejected with the 415 response, not a crash. -/
theorem c5_dotless (s : String) (env : EnvC)
    (hv : validateFilename s = true)
    (hd : s.data.contains '.' = false) :
    extOf s = lowerStr (String.mk (s.data.drop (s.data.length - 1))) ∧
    ALLOWED_EXTENSIONS.contains (extOf s) = false ∧
    (handlerC s env).1 = textResponse "Unsupported file type" 415 := by
  have hn : 1 ≤ s.data.length := by
    have hv' := hv
    simp only [validateFilename, Bool.and_eq_true, decide_eq_true_eq] at hv'
    exact hv'.1.1.1.1
  have hdot : ('.' : Char) ∉ s.data := by
    intro hmem
    have hc : s.data.contains '.' = true := List.elem_iff.mpr hmem
    rw [hc] at hd
    simp at hd
  have hfind : s.data.reverse.findIdx? (fun c => c == '.') = none := by
    rw [List.findIdx?_eq_none_iff]
    intro c hc
    have hcs : c ∈ s.data := List.mem_reverse.mp hc
    have hne : c ≠ '.' := fun h => hdot (h ▸ hcs)
    simp [hne]
  have hlast : lastIndexOfDot s = -1 := by
    simp [lastIndexOfDot, hfind]
  have hidx : s.data.length - min s.data.length 1 = s.data.length - 1 := by omega
  have hslice : jsSliceFrom s (-1) = String.mk (s.data.drop (s.data.length - 1)) := by
    have hcond : ((-1 : Int) < 0) := by decide
    have htn : ((-(-1 : Int)).toNat) = 1 := by decide
    simp only [jsSliceFrom]
    rw [if_pos hcond, htn, hidx]
  have hext : extOf s = lowerStr (String.mk (s.data.drop (s.data.length - 1))) := by
    rw [extOf, hlast, hslice]
  have hlen : (extOf s).data.length = 1 := by
    rw [hext]
    show ((s.data.drop (s.data.length - 1)).map Char.toLower).length = 1
    rw [List.length_map, List.length_drop]
    omega
  have hno : ALLOWED_EXTENSIONS.contains (extOf s) = false :=
    not_allowed_of_length_one _ hlen
  refine ⟨hext, hno, ?_⟩
  have hno' : extOf s ∉ ALLOWED_EXTENSIONS := by
    intro hmem
    have hc : ALLOWED_EXTENSIONS.contains (extOf s) = true := List.elem_iff.mpr hmem
    rw [hc] at hno
    simp at hno
  simp [handlerC, hv, hno']

/-- Claim C6: on every cache hit the response is rebuilt from the cached
entry, with the status forced to 200 whatever the cached status was, the body
taken from the entry, the x-cache-status header set or overwritten to HIT, and
the lookup of every other header name unchanged from the cached headers. -/
theorem c6_hit_rebuild (fn : String) (env : EnvC) (e : CacheEntry)
    (etag : Option String) (clen : Option Nat)
    (hv : validateFilename fn = true)
    (hx : ALLOWED_EXTENSIONS.contains (extOf fn) = true)
    (hh : env.headResult = HeadOutcome.ok etag clen)
    (hc : env.cacheResult = CacheOutcome.hit e) :
    (handlerC fn env).1.status = 200 ∧
    (handlerC fn env).1.body = e.body ∧
    (handlerC fn env).1.headers.lookup "x-cache-status" = some (some "HIT") ∧
    ∀ k : String, k ≠ "x-cache-status" →
      (handlerC fn env).1.headers.lookup k = e.headers.lookup k := by
  have hx' : extOf fn ∈ ALLOWED_EXTENSIONS := List.elem_iff.mp hx
  have hr : (handlerC fn env).1 = hitResponse e := by
    simp [handlerC, hv, hx', hh, hc]
  rw [hr]
  refine ⟨rfl, rfl, ?_, ?_⟩
  · exact lookup_jsObjectSet_self e.headers _ _
  · intro k hk
    exact lookup_jsObjectSet_other e.headers _ k _ hk

/-- Witness for claim C6: the cached 206 entry is served as a 200 hit with its
content type preserved and HIT injected. -/
theorem c6_hit_rebuild_witness :
    entryPng.status = 206 ∧
    (handlerC "a.jpg" envHit).1.status = 200 ∧
    (handlerC "a.jpg" envHit).1.headers.lookup "x-cache-status" = some (some "HIT") ∧
    (handlerC "a.jpg" envHit).1.headers.lookup "content-type" = some (some "image/png") := by
  have h := c6_hit_rebuild "a.jpg" envHit entryPng (some "t") (some 3)
    (by decide) (by decide) rfl rfl
  refine ⟨by decide, h.1, h.2.2.1, ?_⟩
  rw [h.2.2.2 "content-type" (by decide)]
  decide

/-- Claim C7: a validated, allow-listed filename whose object is missing from
the store is answered 404 with body Image not found and without any ETag
header, both in the cached variant (head throws NotFound) and in the part_001
variant (exists resolves false). -/
theorem c7_missing_object :
    (∀ (fn : String) (env : EnvC),
      validateFilename fn = true →
      ALLOWED_EXTENSIONS.contains (extOf fn) = true →
      env.headResult = HeadOutcome.throw "NotFound" →
      (handlerC fn env).1 = textResponse "Image not found" 404 ∧
      (handlerC fn env).1.headers.lookup "etag" = none) ∧
    (∀ (fn : String) (env : Env1) (etag : String),
      validateFilename1 fn = true →
      ALLOWED_EXTENSIONS.contains (extOf fn) = true →
      env.statResult = StatOutcome.ok etag →
      env.existsResult = ExistsOutcome.ok false →
      handler1 fn env = textResponse "Image not found" 404 ∧
      (handler1 fn env).headers.lookup "etag" = none) := by
  constructor
  · intro fn env hv hx hh
    have hx' : extOf fn ∈ ALLOWED_EXTENSIONS := List.elem_iff.mp hx
    have hr : (handlerC fn env).1 = textResponse "Image not found" 404 := by
      simp [handlerC, hv, hx', hh, catchResp]
    exact ⟨hr, by rw [hr]; rfl⟩
  · intro fn env etag hv hx hs he
    have hx' : extOf fn ∈ ALLOWED_EXTENSIONS := List.elem_iff.mp hx
    have hr : handler1 fn env = textResponse "Image not found" 404 := by
      simp [handler1, hv, hx', hs, he]
    exact ⟨hr, by rw [hr]; rfl⟩

/-- Witness for claim C7 at concrete missing-object requests. -/
theorem c7_missing_object_witness :
    ((handlerC "a.jpg" envNotFound).1 = textResponse "Image not found" 404 ∧
     (handlerC "a.jpg" envNotFound).1.headers.lookup "etag" = none) ∧
    (handler1 "a.jpg" env1Missing = textResponse "Image not found" 404 ∧
     (handler1 "a.jpg" env1Missing).headers.lookup "etag" = none) :=
  ⟨c7_missing_object.1 "a.jpg" envNotFound (by decide) (by decide) rfl,
   c7_missing_object.2 "a.jpg" env1Missing "\"abc\"" (by decide) (by decide) rfl rfl⟩

/-- Claim C3 counterexample: the part_001 variant returns a 200 fetched from
the store that carries no X-Cache-Status and no Content-Length header, and its
ETag keeps the double quotes of the store-provided tag; the part_000 variant
also returns a 200 with no X-Cache-Status header. -/
theorem c3_counterexample :
    (handler1 "a.jpg" env1Ok).status = 200 ∧
    (handler1 "a.jpg" env1Ok).headers.lookup "x-cache-status" = none ∧
    (handler1 "a.jpg" env1Ok).headers.lookup "content-length" = none ∧
    (handler1 "a.jpg" env1Ok).headers.lookup "etag" = some (some "\"abc\"") ∧
    (handler0 "a.jpg" env0Ok).status = 200 ∧
    (handler0 "a.jpg" env0Ok).headers.lookup "x-cache-status" = none := by
  decide

/-- Claim C3 (amended): in the caching variant src/src/index.ts every 200
fetched from the store carries all six headers (content type from the table,
the one-week cache control, the quote-stripped entity tag, the content length,
nosniff, and the MISS cache status); the part_000 variant sets the first five
but no X-Cache-Status; the part_001 variant sets neither X-Cache-Status nor
Content-Length and uses the raw entity tag without stripping quotes. -/
theorem c3_success_headers :
    (∀ (fn : String) (env : EnvC) (etag : String) (clen : Nat) (body : String),
      validateFilename fn = true →
      ALLOWED_EXTENSIONS.contains (extOf fn) = true →
      env.headResult = HeadOutcome.ok (some etag) (some clen) →
      env.cacheResult = CacheOutcome.miss →
      env.getResult = GetOutcome.ok body →
      (handlerC fn env).1.status = 200 ∧
      (handlerC fn env).1.headers.lookup "content-type" =
        some (CONTENT_TYPES (extOf fn)) ∧
      (CONTENT_TYPES (extOf fn)).isSome = true ∧
      (handlerC fn env).1.headers.lookup "cache-control" =
        some (some "public, max-age=604800") ∧
      (handlerC fn env).1.headers.lookup "etag" = some (some (stripQuotes etag)) ∧
      (handlerC fn env).1.headers.lookup "content-length" =
        some (some (toString clen)) ∧
      (handlerC fn env).1.headers.lookup "x-content-type-options" =
        some (some "nosniff") ∧
      (handlerC fn env).1.headers.lookup "x-cache-status" = some (some "MISS")) ∧
    (∀ (fn : String) (env : Env0) (etag : String) (clen : Nat) (body : String),
      validateFilename0 fn = true →
      ALLOWED_EXTENSIONS.contains (extOf fn) = true →
      env.headResult = HeadOutcome.ok (some etag) (some clen) →
      env.getResult = GetOutcome.ok body →
      (handler0 fn env).status = 200 ∧
      (handler0 fn env).headers.lookup "content-type" =
        some (CONTENT_TYPES (extOf fn)) ∧
      (handler0 fn env).headers.lookup "cache-control" =
        some (some "public, max-age=604800") ∧
      (handler0 fn env).headers.lookup "etag" = some (some (stripQuotes etag)) ∧
      (handler0 fn env).headers.lookup "content-length" =
        some (some (toString clen)) ∧
      (handler0 fn env).headers.lookup "x-content-type-options" =
        some (some "nosniff") ∧
      (handler0 fn env).headers.lookup "x-cache-status" = none) ∧
    (∀ (fn : String) (env : Env1) (etag : String),
      validateFilename1 fn = true →
      ALLOWED_EXTENSIONS.contains (extOf fn) = true →
      env.statResult = StatOutcome.ok etag →
      env.existsResult = ExistsOutcome.ok true →
      (handler1 fn env).status = 200 ∧
      (handler1 fn env).headers.lookup "content-type" =
        some (CONTENT_TYPES (extOf fn)) ∧
      (handler1 fn env).headers.lookup "cache-control" =
        some (some "public, max-age=604800") ∧
      (handler1 fn env).headers.lookup "etag" = some (some etag) ∧
      (handler1 fn env).headers.lookup "content-length" = none ∧
      (handler1 fn env).headers.lookup "x-cache-status" = none) := by
  refine ⟨?_, ?_, ?_⟩
  · intro fn env etag clen body hv hx hh hc hg
    have hx' : extOf fn ∈ ALLOWED_EXTENSIONS := List.elem_iff.mp hx
    have hr : (handlerC fn env).1 =
        { status := 200
          headers := missHeaders (extOf fn) (some etag) (some clen)
          body := body } := by
      simp [handlerC, hv, hx', hh, hc, hg]
    rw [hr]
    exact ⟨rfl, rfl, contentType_isSome_of_allowed _ hx, rfl, rfl, rfl, rfl, rfl⟩
  · intro fn env etag clen body hv hx hh hg
    have hx' : extOf fn ∈ ALLOWED_EXTENSIONS := List.elem_iff.mp hx
    have hr : handler0 fn env =
        { status := 200
          headers := mkHeaders [("Content-Type", CONTENT_TYPES (extOf fn)),
            ("Cache-Control", some "public, max-age=604800"),
            ("ETag", (some etag).map stripQuotes),
            ("Content-Length", (some clen).map (fun n => toString n)),
            ("X-Content-Type-Options", some "nosniff")]
          body := body } := by
      simp [handler0, hv, hx', hh, hg]
    rw [hr]
    exact ⟨rfl, rfl, rfl, rfl, rfl, rfl, rfl⟩
  · intro fn env etag hv hx hs he
    have hx' : extOf fn ∈ ALLOWED_EXTENSIONS := List.elem_iff.mp hx
    have hr : handler1 fn env =
        { status := 200
          headers := mkHeaders [("Content-Type", CONTENT_TYPES (extOf fn)),
            ("Cache-Control", some "public, max-age=604800"),
            ("ETag", some etag),
            ("X-Content-Type-Options", some "nosniff")]
          body := env.streamBody } := by
      simp [handler1, hv, hx', hs, he]
    rw [hr]
    exact ⟨rfl, rfl, rfl, rfl, rfl, rfl⟩

/-- Witness for the amended claim C3 at concrete fetch requests against the
three variants. -/
theorem c3_success_headers_witness :
    (handlerC "a.jpg" envMiss).1.headers.lookup "x-cache-status" =
      some (some "MISS") ∧
    (handlerC "a.jpg" envMiss).1.headers.lookup "etag" = some (some "abc") ∧
    (handler0 "a.jpg" env0Ok).headers.lookup "x-cache-status" = none ∧
    (handler1 "a.jpg" env1Ok).headers.lookup "content-length" = none := by
  have h1 := c3_success_headers.1 "a.jpg" envMiss "\"abc\"" 12345 "BYTES"
    (by decide) (by decide) rfl rfl rfl
  have h2 := c3_success_headers.2.1 "a.jpg" env0Ok "\"abc\"" 7 "B"
    (by decide) (by decide) rfl rfl
  have h3 := c3_success_headers.2.2 "a.jpg" env1Ok "\"abc\""
    (by decide) (by decide) rfl rfl
  refine ⟨h1.2.2.2.2.2.2.2, ?_, h2.2.2.2.2.2.2, h3.2.2.2.2.1⟩
  rw [h1.2.2.2.2.1]
  decide

/-- Helper: the cached handler schedules a cache put only on the fresh-fetch
path: validation and classification passed, the head succeeded, the cache
missed, the get succeeded, and the response stored is the fresh 200 response
with the miss headers. -/
theorem handlerC_cachePut_inv (fn : String) (env : EnvC)
    (h : Event.cachePut ∈ (handlerC fn env).2) :
    validateFilename fn = true ∧
    ALLOWED_EXTENSIONS.contains (extOf fn) = true ∧
    ∃ (etag : Option String) (clen : Option Nat) (body : String),
      env.headResult = HeadOutcome.ok etag clen ∧
      env.cacheResult = CacheOutcome.miss ∧
      env.getResult = GetOutcome.ok body ∧
      (handlerC fn env).1 =
        { status := 200
          headers := missHeaders (extOf fn) etag clen
          body := body } := by
  by_cases hv : validateFilename fn
  case neg => simp [handlerC, hv] at h
  by_cases hx' : extOf fn ∈ ALLOWED_EXTENSIONS
  case neg => simp [handlerC, hv, hx'] at h
  cases hh : env.headResult with
  | throw n => simp [handlerC, hv, hx', hh] at h
  | ok etag clen =>
    cases hc : env.cacheResult with
    | hit e => simp [handlerC, hv, hx', hh, hc] at h
    | throw n => simp [handlerC, hv, hx', hh, hc] at h
    | miss =>
      cases hg : env.getResult with
      | throw n => simp [handlerC, hv, hx', hh, hc, hg] at h
      | ok body =>
        refine ⟨hv, List.elem_iff.mpr hx', etag, clen, body, rfl, rfl, rfl, ?_⟩
        simp [handlerC, hv, hx', hh, hc, hg]

/-- Claim C9: whenever the image route of the cached handler answers 200, the
extension of the filename is allow-listed, and (under the invariant that every
entry of the edge cache for these keys was populated by this application) the
content-type header of the 200 response is one of exactly the four MIME
strings of the CONTENT_TYPES table. -/
theorem c9_content_type_invariant (fn : String) (env : EnvC)
    (hwf : ∀ e, env.cacheResult = CacheOutcome.hit e → entryFromApp e)
    (h200 : (handlerC fn env).1.status = 200) :
    ALLOWED_EXTENSIONS.contains (extOf fn) = true ∧
    (handlerC fn env).1.headers.lookup "content-type" ∈
      [some (some "image/jpeg"), some (some "image/png"),
       some (some "image/gif"), some (some "image/webp")] := by
  by_cases hv : validateFilename fn
  case neg =>
    exfalso
    have hr : (handlerC fn env).1 = textResponse "Invalid filename format" 400 := by
      simp [handlerC, hv]
    rw [hr] at h200
    simp [textResponse] at h200
  by_cases hx' : extOf fn ∈ ALLOWED_EXTENSIONS
  case neg =>
    exfalso
    have hr : (handlerC fn env).1 = textResponse "Unsupported file type" 415 := by
      simp [handlerC, hv, hx']
    rw [hr] at h200
    simp [textResponse] at h200
  have hx : ALLOWED_EXTENSIONS.contains (extOf fn) = true := List.elem_iff.mpr hx'
  refine ⟨hx, ?_⟩
  cases hh : env.headResult with
  | throw n =>
    exfalso
    have hr : (handlerC fn env).1 = catchResp n := by
      simp [handlerC, hv, hx', hh]
    rw [hr] at h200
    unfold catchResp at h200
    split at h200 <;> simp [textResponse] at h200
  | ok etag clen =>
    cases hc : env.cacheResult with
    | throw n =>
      exfalso
      have hr : (handlerC fn env).1 = catchResp n := by
        simp [handlerC, hv, hx', hh, hc]
      rw [hr] at h200
      unfold catchResp at h200
      split at h200 <;> simp [textResponse] at h200
    | miss =>
      cases hg : env.getResult with
      | throw n =>
        exfalso
        have hr : (handlerC fn env).1 = catchResp n := by
          simp [handlerC, hv, hx', hh, hc, hg]
        rw [hr] at h200
        unfold catchResp at h200
        split at h200 <;> simp [textResponse] at h200
      | ok body =>
        have hr : (handlerC fn env).1 =
            { status := 200
              headers := missHeaders (extOf fn) etag clen
              body := body } := by
          simp [handlerC, hv, hx', hh, hc, hg]
        rw [hr]
        have hl : (missHeaders (extOf fn) etag clen).lookup "content-type" =
            some (CONTENT_TYPES (extOf fn)) := rfl
        show (missHeaders (extOf fn) etag clen).lookup "content-type" ∈ _
        rw [hl]
        exact contentType_mem_of_allowed _ hx
    | hit e =>
      have hr : (handlerC fn env).1 = hitResponse e := by
        simp [handlerC, hv, hx', hh, hc]
      rw [hr]
      obtain ⟨fn2, env2, hput, hhd, hbd⟩ := hwf e hc
      obtain ⟨hv2, hx2, etag2, clen2, body2, hh2, hc2, hg2, hresp2⟩ :=
        handlerC_cachePut_inv fn2 env2 hput
      have he : e.headers = missHeaders (extOf fn2) etag2 clen2 := by
        rw [hhd, hresp2]
      show (hitResponse e).headers.lookup "content-type" ∈ _
      unfold hitResponse
      rw [lookup_jsObjectSet_other e.headers "x-cache-status" "content-type" _
        (by decide)]
      rw [he]
      have hl : (missHeaders (extOf fn2) etag2 clen2).lookup "content-type" =
          some (CONTENT_TYPES (extOf fn2)) := rfl
      rw [hl]
      exact contentType_mem_of_allowed _ hx2

/-- Witness for claim C9 at a concrete fresh-fetch 200 response. -/
theorem c9_content_type_invariant_witness :
    ALLOWED_EXTENSIONS.contains (extOf "a.jpg") = true ∧
    (handlerC "a.jpg" envMiss).1.headers.lookup "content-type" ∈
      [some (some "image/jpeg"), some (some "image/png"),
       some (some "image/gif"), some (some "image/webp")] :=
  c9_content_type_invariant "a.jpg" envMiss
    (fun e h => by simp [envMiss] at h) (by decide)

/-- Witness for the amended claim C5 at the concrete dotless filename. -/
theorem c5_dotless_witness :
    extOf "ab" = lowerStr (String.mk ("ab".data.drop ("ab".data.length - 1))) ∧
    ALLOWED_EXTENSIONS.contains (extOf "ab") = false ∧
    (handlerC "ab" envMiss).1 = textResponse "Unsupported file type" 415 :=
  c5_dotless "ab" envMiss (by decide) (by decide)
